import Mathlib

/-!
Verification of the BayesOpt core: a shallow embedding of the kernel
library (`kernel_functors.hpp` / `kernel_functors.cpp`), the
non-parametric surrogate (`nonparametricprocess.cpp`), and the
resumable optimisation loop, together with theorems settling the
specified properties.

uBlas vectors (`vectord`) are embedded as `List ℝ`, matrices either as
`ℕ → ℕ → ℝ` entry functions or as row lists `List (List ℝ)`.
Error codes (`int`) are embedded as `ℤ`; a library call that can
terminate the process is given an explicit outcome type.
-/

open Real

/-- uBlas `norm_2`: the Euclidean norm of a vector. -/
noncomputable def norm_2 (v : List ℝ) : ℝ :=
  Real.sqrt ((v.map fun a => a * a).sum)

/-- uBlas vector subtraction `x1 - x2` (sizes agree in every call site,
guarded by `assert(x1.size() == x2.size())`). -/
noncomputable def vsub (x1 x2 : List ℝ) : List ℝ :=
  List.zipWith (fun a b => a - b) x1 x2

/-- Embedding of `utils::ublas_elementwise_div`: elementwise division. -/
noncomputable def ublas_elementwise_div (xd th : List ℝ) : List ℝ :=
  List.zipWith (fun a b => a / b) xd th

/-- Embedding of `ISOkernel::computeScaledNorm2`: `norm_2(x1-x2)/mTheta`. -/
noncomputable def computeScaledNorm2 (theta : ℝ) (x1 x2 : List ℝ) : ℝ :=
  norm_2 (vsub x1 x2) / theta

/-- Embedding of `ARDkernel::computeScaledDiff`: `(x1-x2) ./ mTheta`. -/
noncomputable def computeScaledDiff (thetav : List ℝ) (x1 x2 : List ℝ) : List ℝ :=
  ublas_elementwise_div (vsub x1 x2) thetav

namespace MaternIso1

/-- Embedding of `MaternIso1::operator()`: `exp(-r)` with `r` the scaled norm. -/
noncomputable def eval (theta : ℝ) (x1 x2 : List ℝ) : ℝ :=
  let r := computeScaledNorm2 theta x1 x2
  Real.exp (-r)

/-- Embedding of `MaternIso1::getGradient`: `r*exp(-r)`. -/
noncomputable def getGradient (theta : ℝ) (x1 x2 : List ℝ) (_ : ℕ) : ℝ :=
  let r := computeScaledNorm2 theta x1 x2
  r * Real.exp (-r)

end MaternIso1

namespace MaternIso3

/-- Embedding of `MaternIso3::operator()`: `(1+r)*exp(-r)` with `r = sqrt(3)*scaled norm`. -/
noncomputable def eval (theta : ℝ) (x1 x2 : List ℝ) : ℝ :=
  let r := Real.sqrt 3 * computeScaledNorm2 theta x1 x2
  let er := Real.exp (-r)
  (1 + r) * er

/-- Embedding of `MaternIso3::getGradient`: `r*r*exp(-r)`. -/
noncomputable def getGradient (theta : ℝ) (x1 x2 : List ℝ) (_ : ℕ) : ℝ :=
  let r := Real.sqrt 3 * computeScaledNorm2 theta x1 x2
  let er := Real.exp (-r)
  r * r * er

end MaternIso3

namespace MaternIso5

/-- Embedding of `MaternIso5::operator()`: `(1+r*(1+r/3))*exp(-r)` with `r = sqrt(5)*scaled norm`. -/
noncomputable def eval (theta : ℝ) (x1 x2 : List ℝ) : ℝ :=
  let r := Real.sqrt 5 * computeScaledNorm2 theta x1 x2
  let er := Real.exp (-r)
  (1 + r * (1 + r / 3)) * er

/-- Embedding of `MaternIso5::getGradient`: `r*(1+r)/3*r*exp(-r)`. -/
noncomputable def getGradient (theta : ℝ) (x1 x2 : List ℝ) (_ : ℕ) : ℝ :=
  let r := Real.sqrt 5 * computeScaledNorm2 theta x1 x2
  let er := Real.exp (-r)
  r * (1 + r) / 3 * r * er

end MaternIso5

namespace SEIso

/-- Embedding of `SEIso::operator()`: `exp(-k/2)` with `k = rl*rl`, `rl` the scaled norm. -/
noncomputable def eval (theta : ℝ) (x1 x2 : List ℝ) : ℝ :=
  let rl := computeScaledNorm2 theta x1 x2
  let k := rl * rl
  Real.exp (-k / 2)

/-- Embedding of `SEIso::getGradient`: `exp(-k/2)*k`. -/
noncomputable def getGradient (theta : ℝ) (x1 x2 : List ℝ) (_ : ℕ) : ℝ :=
  let rl := computeScaledNorm2 theta x1 x2
  let k := rl * rl
  Real.exp (-k / 2) * k

end SEIso

namespace SEArd

/-- Embedding of `SEArd::operator()`: `exp(-k/2)` with `k = rl*rl`, `rl = norm_2(ri)`,
`ri` the elementwise scaled difference. -/
noncomputable def eval (thetav : List ℝ) (x1 x2 : List ℝ) : ℝ :=
  let ri := computeScaledDiff thetav x1 x2
  let rl := norm_2 ri
  let k := rl * rl
  Real.exp (-k / 2)

/-- Embedding of `SEArd::getGradient`: the source returns `exp(-k/2)*sqrt(ri(grad_index))`
(verbatim; `ri(grad_index)` is the signed scaled coordinate difference). -/
noncomputable def getGradient (thetav : List ℝ) (x1 x2 : List ℝ) (grad_index : ℕ) : ℝ :=
  let ri := computeScaledDiff thetav x1 x2
  let rl := norm_2 ri
  let k := rl * rl
  Real.exp (-k / 2) * Real.sqrt (ri.getD grad_index 0)

end SEArd

/-! ## Factories (`kernel_functors.cpp`, `nonparametricprocess.cpp`) -/

/-- The kernel registry populated by `KernelFactory::KernelFactory()`,
in registration order. -/
def kernelRegistry : List String :=
  ["kConst", "kLinear", "kLinearARD",
   "kHamming",
   "kMaternISO1", "kMaternISO3", "kMaternISO5",
   "kMaternARD1", "kMaternARD3", "kMaternARD5",
   "kPoly1", "kPoly2", "kPoly3", "kPoly4", "kPoly5", "kPoly6",
   "kSEARD", "kSEISO",
   "kRQISO",
   "kSum", "kProd"]

/-- Modelled from the spec: the output of `utils::parseExpresion`
(`parser.hpp`, not under src/).  It splits a kernel-name string into an
outer name `os` and optional sub-expressions `os1`, `os2`; an atomic
name has empty sub-expressions, a combinator name `os(os1,os2)` has
both. -/
inductive KernelExpr where
  | atom (os : String)
  | comb (os : String) (os1 os2 : KernelExpr)

/-- Names occurring anywhere in a parsed kernel expression. -/
def exprNames : KernelExpr → List String
  | .atom os => [os]
  | .comb os os1 os2 => os :: (exprNames os1 ++ exprNames os2)

/-- The kernel object built by `KernelFactory::create`: an `init(dim)`
leaf or an `init(dim, child1, child2)` combinator node. -/
inductive KTree where
  | leaf (name : String) (dim : ℕ)
  | node (name : String) (dim : ℕ) (l r : KTree)
deriving DecidableEq

/-- Embedding of `KernelFactory::create`: look up the outer name in the registry;
an unregistered name raises `std::invalid_argument` (embedded as
`Except.error`) before any construction; otherwise build the kernel,
recursing into the sub-expressions of a combined kernel. -/
def KernelFactory_create (input_dim : ℕ) : KernelExpr → Except String KTree
  | .atom os =>
      if os ∈ kernelRegistry then .ok (.leaf os input_dim)
      else .error ("Error while parsing kernel function: Kernel not found " ++ os)
  | .comb os os1 os2 =>
      if os ∈ kernelRegistry then
        match KernelFactory_create input_dim os1 with
        | .error msg => .error msg
        | .ok k1 =>
            match KernelFactory_create input_dim os2 with
            | .error msg => .error msg
            | .ok k2 => .ok (.node os input_dim k1 k2)
      else .error ("Error while parsing kernel function: Kernel not found " ++ os)

/-- The concrete classes `NonParametricProcess::create` can construct. -/
inductive SurrogateClass where
  | GaussianProcess
  | GaussianProcessML
  | GaussianProcessNormal
  | StudentTProcessNIG
deriving DecidableEq

/-- The slice of `bopt_params` the embedded operations consult. -/
structure bopt_params where
  n_iterations : ℕ
  n_init_samples : ℕ
  random_seed : ℤ
  verbose_level : ℕ
  noise : ℝ
  surr_name : String
  l_type : ℕ

/-- The dispatch of `NonParametricProcess::create` on a surrogate name:
which class is constructed, with which `(dim, parameters)` arguments;
an unsupported name yields `NULL` (embedded as `none`). -/
def NonParametricProcess_createByName (dim : ℕ) (parameters : bopt_params)
    (name : String) : Option (SurrogateClass × ℕ × bopt_params) :=
  if name = "sGaussianProcess" then
    some (.GaussianProcess, dim, parameters)
  else if name = "sGaussianProcessML" then
    some (.GaussianProcessML, dim, parameters)
  else if name = "sGaussianProcessNormal" then
    some (.GaussianProcessNormal, dim, parameters)
  else if name = "sStudentTProcessJef" then
    some (.StudentTProcessNIG, dim, parameters)
  else if name = "sStudentTProcessNIG" then
    some (.StudentTProcessNIG, dim, parameters)
  else
    none

/-- Embedding of `NonParametricProcess::create(dim, parameters)` reads the name from
`parameters.surr_name`. -/
def NonParametricProcess_create (dim : ℕ) (parameters : bopt_params) :
    Option (SurrogateClass × ℕ × bopt_params) :=
  NonParametricProcess_createByName dim parameters parameters.surr_name

/-- Embedding of `NonParametricProcess::setMean(muv, smu, m_name, dim)`, restricted to
the installed coefficient state `(mMu, mS_Mu)`: `"mZero"` installs
`(zvectord(1), svectord(1,1e-10))`, `"mOne"` installs
`(svectord(1,1.0), svectord(1,1e-10))`, any other name installs the
user-supplied `(muv, smu)` unchanged. -/
noncomputable def setMeanCoef (muv smu : List ℝ) (m_name : String) : List ℝ × List ℝ :=
  if m_name = "mZero" then
    (List.replicate 1 (0 : ℝ), List.replicate 1 ((1e-10 : ℝ)))
  else if m_name = "mOne" then
    (List.replicate 1 (1 : ℝ), List.replicate 1 ((1e-10 : ℝ)))
  else
    (muv, smu)

/-! ## Correlation matrix (`KernelModel::computeCorrMatrix`) -/

/-- Embedding of `KernelModel::computeCorrMatrix`: the loop writes, for each `ii` and
each `jj < ii`, `M(ii,jj) = k(XX[ii],XX[jj])` and mirrors it to
`M(jj,ii)`, and sets `M(ii,ii) = k(XX[ii],XX[ii]) + nugget`; every
entry is written exactly once, so the finished matrix is this entry
function. -/
noncomputable def computeCorrMatrix (k : List ℝ → List ℝ → ℝ) (XX : List (List ℝ))
    (nugget : ℝ) : ℕ → ℕ → ℝ := fun i j =>
  if i = j then k (XX.getD i []) (XX.getD i []) + nugget
  else if j < i then k (XX.getD i []) (XX.getD j [])
  else k (XX.getD j []) (XX.getD i [])

/-! ## Cholesky primitives (spec-modelled: `cholesky.hpp` is not under src/) -/

/-- One step of Gaussian elimination: the Schur complement of the
leading entry. -/
noncomputable def schurComplement (M : ℕ → ℕ → ℝ) : ℕ → ℕ → ℝ := fun i j =>
  M (i + 1) (j + 1) - M (i + 1) 0 * M 0 (j + 1) / M 0 0

/-- Modelled from the spec: `utils::cholesky_decompose` is a primitive
("Cholesky decomposition/solve/rank-1-update are treated as
primitives") that succeeds exactly when every pivot of the symmetric
input matrix is strictly positive, i.e. when the matrix is positive
definite; failure is "non-positive-definite K + sigma^2_n I". -/
def PivotsPos : ℕ → (ℕ → ℕ → ℝ) → Prop
  | 0, _ => True
  | n + 1, M => 0 < M 0 0 ∧ PivotsPos n (schurComplement M)

open Classical in
/-- Modelled from the spec: the error code of `utils::cholesky_decompose`
(0 on success, nonzero on a nonpositive pivot). -/
noncomputable def cholesky_decompose_error (n : ℕ) (M : ℕ → ℕ → ℝ) : ℤ :=
  if PivotsPos n M then 0 else 1

/-- Embedding of `NonParametricProcess::computeCholeskyCorrelation`: build
`K = computeCorrMatrix(...)` over the samples with the regularizer as
nugget and return the `cholesky_decompose` error code. -/
noncomputable def computeCholeskyCorrelation (k : List ℝ → List ℝ → ℝ)
    (XX : List (List ℝ)) (mRegularizer : ℝ) : ℤ :=
  cholesky_decompose_error XX.length (computeCorrMatrix k XX mRegularizer)

/-- How a call that may invoke `exit(EXIT_FAILURE)` finishes: it either
returns an error code to its caller or terminates the process. -/
inductive FitOutcome where
  | ret (code : ℤ)
  | exited
deriving DecidableEq

/-- Embedding of `NonParametricProcess::precomputeSurrogate`: if
`computeCholeskyCorrelation` reports an error, log and
`exit(EXIT_FAILURE)`; then if `precomputePrediction()` (flavour-specific,
not under src/, its error code passed in as `predErr`) reports an error,
log and `exit(EXIT_FAILURE)`; otherwise return the (zero) error code. -/
noncomputable def precomputeSurrogate (predErr : ℤ) (k : List ℝ → List ℝ → ℝ)
    (XX : List (List ℝ)) (mRegularizer : ℝ) : FitOutcome :=
  if computeCholeskyCorrelation k XX mRegularizer ≠ 0 then .exited
  else if predErr ≠ 0 then .exited
  else .ret predErr

/-! ## Sample storage (`NonParametricProcess`) -/

/-- The sample-owning state of `NonParametricProcess`: inputs `mGPXX`,
outputs `mGPY`, cached mean values `mMeanV` and feature columns
`mFeatM` (stored per sample). -/
structure ProcessData where
  mGPXX : List (List ℝ)
  mGPY : List ℝ
  mMeanV : List ℝ
  mFeatM : List (List ℝ)

/-- Embedding of `NonParametricProcess::addSample(x, y)`: push `x` onto `mGPXX`, grow
`mGPY` (uBlas `resize` preserves existing entries) and write `y` at the
new last slot, and append the mean value and feature column of `x`
(`getMean`, `getFeatures` are the mean-function callbacks). -/
def addSample (getMean : List ℝ → ℝ) (getFeatures : List ℝ → List ℝ)
    (d : ProcessData) (x : List ℝ) (y : ℝ) : ProcessData :=
  { mGPXX := d.mGPXX ++ [x]
    mGPY := d.mGPY ++ [y]
    mMeanV := d.mMeanV ++ [getMean x]
    mFeatM := d.mFeatM ++ [getFeatures x] }

/-- Embedding of `NonParametricProcess::getLastSample(x)`: reads index
`mGPY.size()-1` of `mGPXX` and `mGPY`. -/
noncomputable def getLastSample (d : ProcessData) : List ℝ × ℝ :=
  let last := d.mGPY.length - 1
  (d.mGPXX.getD last [], d.mGPY.getD last 0)

/-! ## Rank-1 Cholesky append (`addNewPointToCholesky`, `updateSurrogateModel`) -/

/-- Forward substitution `L v = b` for a lower-triangular row list
(primitive used by the rank-1 append). -/
noncomputable def forwardSolveAux : List (List ℝ) → List ℝ → List ℝ → List ℝ
  | [], _, acc => acc
  | row :: rows, b, acc =>
      let i := acc.length
      let s := (List.zipWith (fun a c => a * c) (row.take i) acc).sum
      let vi := (b.getD i 0 - s) / row.getD i 0
      forwardSolveAux rows b (acc ++ [vi])

/-- Forward substitution from an empty accumulator. -/
noncomputable def forwardSolve (L : List (List ℝ)) (b : List ℝ) : List ℝ :=
  forwardSolveAux L b []

/-- Sum of squares of a vector. -/
noncomputable def dotSelf (v : List ℝ) : ℝ := (v.map fun a => a * a).sum

/-- Modelled from the spec: `utils::cholesky_add_row` (primitive, not
under src/) appends one row to the factor: solve `L v = k_*`, set the
new diagonal to `sqrt(k_** - ||v||^2)`, and append `[v, d]` as the new
last row; positive-definiteness is lost exactly when
`k_** - ||v||^2 <= 0`. -/
noncomputable def cholesky_add_row (L : List (List ℝ)) (newK : List ℝ) :
    List (List ℝ) :=
  let v := forwardSolve L (newK.take L.length)
  L ++ [v ++ [Real.sqrt (newK.getD L.length 0 - dotSelf v)]]

/-- The squared value of the diagonal entry the append would produce;
the append loses positive-definiteness iff it is `≤ 0`. -/
noncomputable def appendDiagSq (L : List (List ℝ)) (newK : List ℝ) : ℝ :=
  newK.getD L.length 0 - dotSelf (forwardSolve L (newK.take L.length))

/-- Embedding of `NonParametricProcess::addNewPointToCholesky(correlation,
selfcorrelation)`: append `selfcorrelation` to the correlation vector,
call `utils::cholesky_add_row`, and return 0 — unconditionally; no
failure from the append is examined or propagated. -/
noncomputable def addNewPointToCholesky (L : List (List ℝ))
    (correlation : List ℝ) (selfcorrelation : ℝ) : List (List ℝ) × ℤ :=
  let newK := correlation ++ [selfcorrelation]
  (cholesky_add_row L newK, 0)

/-- The surrogate state `updateSurrogateModel` touches: the sample data,
the Cholesky factor `mL` and the regularizer. -/
structure SurrogateState where
  data : ProcessData
  mL : List (List ℝ)
  mRegularizer : ℝ

/-- Embedding of `NonParametricProcess::updateSurrogateModel(Xnew, Ynew)`: compute the
cross-correlation `k_* = [k(x_i, Xnew)]` and the regularised
self-correlation, `addSample`, call `addNewPointToCholesky` with its
result discarded (the source does not even bind it), and return 0.
(`precomputePrediction` is flavour-specific and not under src/; its
success path, the one relevant here, returns no error.) -/
noncomputable def updateSurrogateModel (k : List ℝ → List ℝ → ℝ)
    (getMean : List ℝ → ℝ) (getFeatures : List ℝ → List ℝ)
    (s : SurrogateState) (Xnew : List ℝ) (Ynew : ℝ) : SurrogateState × ℤ :=
  let newK := s.data.mGPXX.map fun xi => k xi Xnew
  let selfCorrelation := k Xnew Xnew + s.mRegularizer
  let data' := addSample getMean getFeatures s.data Xnew Ynew
  let Lres := addNewPointToCholesky s.mL newK selfCorrelation
  ({ data := data', mL := Lres.1, mRegularizer := s.mRegularizer }, 0)

/-! ## Resumable loop state (spec-modelled: the BO loop driver,
`BOptState`, `saveOptimization`, `restoreOptimization` and
`stepOptimization` are not under src/; only their test driver is). -/

/-- Modelled from the spec: the persisted optimizer state — loop
counters (`mCurrentIter`, `mCounterStuck`, `mYPrev`), the configuration,
the kernel hyperparameters, the mean prior state, the sample matrix and
vector, and the RNG state.  The spec's persisted-state section says the
snapshot is a complete value snapshot of loop + surrogate + RNG. -/
structure BOState where
  mCurrentIter : ℕ
  mCounterStuck : ℕ
  mYPrev : ℝ
  mParameters : bopt_params
  kernelHyp : List ℝ
  meanMu : List ℝ
  meanSMu : List ℝ
  mX : List (List ℝ)
  mY : List ℝ
  rngState : ℕ

/-- Modelled from the spec: the serialised document `BOptState` — the
same fields plus a format version integer. -/
structure BOptStateDoc where
  version : ℕ
  mCurrentIter : ℕ
  mCounterStuck : ℕ
  mYPrev : ℝ
  mParameters : bopt_params
  kernelHyp : List ℝ
  meanMu : List ℝ
  meanSMu : List ℝ
  mX : List (List ℝ)
  mY : List ℝ
  rngState : ℕ

/-- Modelled from the spec: `saveOptimization` writes every persisted
field into the version-tagged document. -/
def saveOptimization (s : BOState) : BOptStateDoc :=
  { version := 1
    mCurrentIter := s.mCurrentIter
    mCounterStuck := s.mCounterStuck
    mYPrev := s.mYPrev
    mParameters := s.mParameters
    kernelHyp := s.kernelHyp
    meanMu := s.meanMu
    meanSMu := s.meanSMu
    mX := s.mX
    mY := s.mY
    rngState := s.rngState }

/-- Modelled from the spec: `restoreOptimization` installs every
persisted field of the document into the freshly constructed
optimizer. -/
def restoreOptimization (d : BOptStateDoc) : BOState :=
  { mCurrentIter := d.mCurrentIter
    mCounterStuck := d.mCounterStuck
    mYPrev := d.mYPrev
    mParameters := d.mParameters
    kernelHyp := d.kernelHyp
    meanMu := d.meanMu
    meanSMu := d.meanSMu
    mX := d.mX
    mY := d.mY
    rngState := d.rngState }

open Classical in
/-- Modelled from the spec: `getFinalResult` returns the best observed
point `(x*, y*)` — the sample with the minimal observed value. -/
noncomputable def getFinalResult (s : BOState) : List ℝ × ℝ :=
  match s.mX.zip s.mY with
  | [] => ([], 0)
  | p :: ps => ps.foldl (fun b q => if q.2 < b.2 then q else b) p

/-- A minimal deterministic step function (it advances the iteration
counter), used to exercise the resume law on a concrete input. -/
def tickStep : bopt_params → BOState → BOState :=
  fun _ s => { s with mCurrentIter := s.mCurrentIter + 1 }

/-- Concrete parameter values mirroring the resume test driver. -/
noncomputable def testParams : bopt_params :=
  ⟨190, 10, 0, 1, 0, "sGaussianProcess", 0⟩

/-- A concrete initial optimizer state. -/
noncomputable def testState : BOState :=
  ⟨0, 0, 0, testParams, [], [], [], [], [], 0⟩

/-! ## Helper lemmas -/

lemma vsub_self_all_zero (x : List ℝ) : ∀ a ∈ vsub x x, a = 0 := by
  induction x with
  | nil => intro a ha; simp [vsub] at ha
  | cons h t ih =>
      intro a ha
      simp only [vsub, List.zipWith_cons_cons, List.mem_cons] at ha
      rcases ha with ha | ha
      · simpa using ha
      · exact ih a ha

lemma computeScaledDiff_self_all_zero (thetav x : List ℝ) :
    ∀ a ∈ computeScaledDiff thetav x x, a = 0 := by
  induction x generalizing thetav with
  | nil => intro a ha; simp [computeScaledDiff, ublas_elementwise_div, vsub] at ha
  | cons h t ih =>
      intro a ha
      cases thetav with
      | nil => simp [computeScaledDiff, ublas_elementwise_div, vsub] at ha
      | cons b bs =>
          simp only [computeScaledDiff, ublas_elementwise_div, vsub,
            List.zipWith_cons_cons, List.mem_cons] at ha
          rcases ha with ha | ha
          · rw [ha, sub_self, zero_div]
          · exact ih bs a ha

lemma norm_2_eq_zero_of_all_zero (v : List ℝ) (h : ∀ a ∈ v, a = 0) :
    norm_2 v = 0 := by
  have hs : (v.map fun a => a * a).sum = 0 := by
    apply List.sum_eq_zero
    intro b hb
    rcases List.mem_map.mp hb with ⟨a, ha, rfl⟩
    rw [h a ha, mul_zero]
  rw [norm_2, hs, Real.sqrt_zero]

lemma computeScaledNorm2_self (theta : ℝ) (x : List ℝ) :
    computeScaledNorm2 theta x x = 0 := by
  rw [computeScaledNorm2, norm_2_eq_zero_of_all_zero _ (vsub_self_all_zero x), zero_div]

/-! ## Claim theorems -/

/-- C8: for every atomic kernel of `kernel_functors.hpp` (MaternIso1,
MaternIso3, MaternIso5, SEIso, SEArd), every configuration with strictly
positive length-scale hyperparameters and every input `x` of matching
dimension, the self-evaluation `k(x,x)` is strictly positive — in fact
equal to 1. -/
theorem atomic_kernels_self_eval_one (theta : ℝ) (thetav : List ℝ) (x : List ℝ)
    (htheta : 0 < theta) (hthetav : ∀ t ∈ thetav, 0 < t)
    (hdim : thetav.length = x.length) :
    (MaternIso1.eval theta x x = 1 ∧ 0 < MaternIso1.eval theta x x) ∧
    (MaternIso3.eval theta x x = 1 ∧ 0 < MaternIso3.eval theta x x) ∧
    (MaternIso5.eval theta x x = 1 ∧ 0 < MaternIso5.eval theta x x) ∧
    (SEIso.eval theta x x = 1 ∧ 0 < SEIso.eval theta x x) ∧
    (SEArd.eval thetav x x = 1 ∧ 0 < SEArd.eval thetav x x) := by
  have h0 : computeScaledNorm2 theta x x = 0 := computeScaledNorm2_self theta x
  have hard : norm_2 (computeScaledDiff thetav x x) = 0 :=
    norm_2_eq_zero_of_all_zero _ (computeScaledDiff_self_all_zero thetav x)
  have h1 : MaternIso1.eval theta x x = 1 := by
    simp [MaternIso1.eval, h0]
  have h3 : MaternIso3.eval theta x x = 1 := by
    simp [MaternIso3.eval, h0]
  have h5 : MaternIso5.eval theta x x = 1 := by
    simp [MaternIso5.eval, h0]
  have hse : SEIso.eval theta x x = 1 := by
    simp [SEIso.eval, h0]
  have hsa : SEArd.eval thetav x x = 1 := by
    simp [SEArd.eval, hard]
  refine ⟨⟨h1, ?_⟩, ⟨h3, ?_⟩, ⟨h5, ?_⟩, ⟨hse, ?_⟩, ⟨hsa, ?_⟩⟩ <;>
    simp [h1, h3, h5, hse, hsa]

/-- Witness for C8 at `theta = 1`, `thetav = [1]`, `x = [1/2]`. -/
theorem atomic_kernels_self_eval_one_witness :
    (0 : ℝ) < 1 ∧ (∀ t ∈ [(1 : ℝ)], 0 < t) ∧
      [(1 : ℝ)].length = [(1/2 : ℝ)].length ∧
      ((MaternIso1.eval 1 [1/2] [1/2] = 1 ∧ 0 < MaternIso1.eval 1 [1/2] [1/2]) ∧
       (MaternIso3.eval 1 [1/2] [1/2] = 1 ∧ 0 < MaternIso3.eval 1 [1/2] [1/2]) ∧
       (MaternIso5.eval 1 [1/2] [1/2] = 1 ∧ 0 < MaternIso5.eval 1 [1/2] [1/2]) ∧
       (SEIso.eval 1 [1/2] [1/2] = 1 ∧ 0 < SEIso.eval 1 [1/2] [1/2]) ∧
       (SEArd.eval [1] [1/2] [1/2] = 1 ∧ 0 < SEArd.eval [1] [1/2] [1/2])) :=
  ⟨by norm_num, by norm_num, by norm_num,
   atomic_kernels_self_eval_one 1 [1] [1/2] (by norm_num) (by norm_num) (by norm_num)⟩

/-- C5: the factory `NonParametricProcess::create` constructs, for the
label `"sStudentTProcessJef"`, exactly the object it constructs for
`"sStudentTProcessNIG"` — a `StudentTProcessNIG` with the same
`(dim, parameters)` arguments; the two labels are aliases. -/
theorem studentTProcessJef_alias_of_NIG (dim : ℕ) (parameters : bopt_params) :
    NonParametricProcess_createByName dim parameters "sStudentTProcessJef" =
      NonParametricProcess_createByName dim parameters "sStudentTProcessNIG" ∧
    NonParametricProcess_createByName dim parameters "sStudentTProcessJef" =
      some (.StudentTProcessNIG, dim, parameters) := by
  constructor <;> rfl

/-- C10: `setMean` with name `"mZero"` installs the coefficient vector
`(0)` with prior standard deviation `1e-10`, with `"mOne"` installs `(1)`
with prior standard deviation `1e-10` (both ignoring the user-supplied
vectors), and with any other name installs the user-supplied vectors
unchanged. -/
theorem setMean_installs_coefficients (muv smu : List ℝ) :
    setMeanCoef muv smu "mZero" = ([0], [(1e-10 : ℝ)]) ∧
    setMeanCoef muv smu "mOne" = ([1], [(1e-10 : ℝ)]) ∧
    ∀ m_name : String, m_name ≠ "mZero" → m_name ≠ "mOne" →
      setMeanCoef muv smu m_name = (muv, smu) := by
  refine ⟨rfl, rfl, ?_⟩
  intro m_name h0 h1
  simp [setMeanCoef, h0, h1]

/-- Witness for C10 at `muv = [2]`, `smu = [3]`, other name `"mConst"`. -/
theorem setMean_installs_coefficients_witness :
    setMeanCoef [(2 : ℝ)] [3] "mZero" = ([0], [(1e-10 : ℝ)]) ∧
    setMeanCoef [(2 : ℝ)] [3] "mOne" = ([1], [(1e-10 : ℝ)]) ∧
    ("mConst" ≠ "mZero" ∧ "mConst" ≠ "mOne" ∧
      setMeanCoef [(2 : ℝ)] [3] "mConst" = ([2], [3])) :=
  ⟨(setMean_installs_coefficients [2] [3]).1,
   (setMean_installs_coefficients [2] [3]).2.1,
   by decide, by decide,
   (setMean_installs_coefficients [2] [3]).2.2 "mConst" (by decide) (by decide)⟩

lemma getD_append_self_length {α : Type} (l : List α) (x : α) (d : α) :
    (l ++ [x]).getD l.length d = x := by
  rw [List.getD_append_right l [x] d l.length le_rfl, Nat.sub_self]
  rfl

/-- C7: the matrix produced by `KernelModel::computeCorrMatrix` over a
sample list `XX`, a kernel `k` (symmetric, as every kernel of the
library is) and a nugget `σ²_n ≥ 0` is symmetric, has
`M(i,j) = k(XX[i], XX[j])` at every off-diagonal entry, and
`M(i,i) = k(XX[i], XX[i]) + σ²_n` on the diagonal. -/
theorem computeCorrMatrix_entries (k : List ℝ → List ℝ → ℝ)
    (hsym : ∀ a b, k a b = k b a) (XX : List (List ℝ)) (nugget : ℝ)
    (hnug : 0 ≤ nugget) :
    (∀ i j, computeCorrMatrix k XX nugget i j = computeCorrMatrix k XX nugget j i) ∧
    (∀ i j, i ≠ j →
      computeCorrMatrix k XX nugget i j = k (XX.getD i []) (XX.getD j [])) ∧
    (∀ i, computeCorrMatrix k XX nugget i i = k (XX.getD i []) (XX.getD i []) + nugget) := by
  refine ⟨?_, ?_, ?_⟩
  · intro i j
    unfold computeCorrMatrix
    rcases Nat.lt_trichotomy i j with h | h | h
    · rw [if_neg (Nat.ne_of_lt h), if_neg (Nat.lt_asymm h), if_neg (Nat.ne_of_gt h), if_pos h]
    · rw [h]
    · rw [if_neg (Nat.ne_of_gt h), if_pos h, if_neg (Nat.ne_of_lt h), if_neg (Nat.lt_asymm h)]
  · intro i j hij
    unfold computeCorrMatrix
    rw [if_neg hij]
    rcases Nat.lt_or_ge j i with h | h
    · rw [if_pos h]
    · rw [if_neg (Nat.not_lt.mpr h), hsym]
  · intro i
    unfold computeCorrMatrix
    rw [if_pos rfl]

/-- Witness for C7 with the constant kernel `k(a,b) = 1`,
`XX = [[0],[1]]` and nugget `1`. -/
theorem computeCorrMatrix_entries_witness :
    (∀ a b : List ℝ, (fun _ _ => (1 : ℝ)) a b = (fun _ _ => (1 : ℝ)) b a) ∧
    (0 : ℝ) ≤ 1 ∧
    ((∀ i j, computeCorrMatrix (fun _ _ => (1 : ℝ)) [[0], [1]] 1 i j =
        computeCorrMatrix (fun _ _ => (1 : ℝ)) [[0], [1]] 1 j i) ∧
     (∀ i j, i ≠ j → computeCorrMatrix (fun _ _ => (1 : ℝ)) [[0], [1]] 1 i j =
        (fun _ _ => (1 : ℝ)) ([[(0 : ℝ)], [1]].getD i []) ([[(0 : ℝ)], [1]].getD j [])) ∧
     (∀ i, computeCorrMatrix (fun _ _ => (1 : ℝ)) [[0], [1]] 1 i i =
        (fun _ _ => (1 : ℝ)) ([[(0 : ℝ)], [1]].getD i []) ([[(0 : ℝ)], [1]].getD i []) + 1)) :=
  ⟨fun _ _ => rfl, by norm_num,
   computeCorrMatrix_entries (fun _ _ => (1 : ℝ)) (fun _ _ => rfl) [[0], [1]] 1 (by norm_num)⟩

/-- C9: `addSample(x, y)` grows the stored samples by exactly one, leaves
every previously stored pair unchanged at its index, and afterwards
`getLastSample` returns exactly `(x, y)`; moreover
`updateSurrogateModel` (the only other post-design mutator of the sample
set) changes the sample set exactly by the same single append, so no
operation removes a sample. -/
theorem addSample_appends_and_preserves (getMean : List ℝ → ℝ)
    (getFeatures : List ℝ → List ℝ) (d : ProcessData) (x : List ℝ) (y : ℝ)
    (hlen : d.mGPXX.length = d.mGPY.length) :
    ((addSample getMean getFeatures d x y).mGPXX.length = d.mGPXX.length + 1) ∧
    ((addSample getMean getFeatures d x y).mGPY.length = d.mGPY.length + 1) ∧
    (∀ i, i < d.mGPXX.length →
      (addSample getMean getFeatures d x y).mGPXX.getD i [] = d.mGPXX.getD i []) ∧
    (∀ i, i < d.mGPY.length →
      (addSample getMean getFeatures d x y).mGPY.getD i 0 = d.mGPY.getD i 0) ∧
    (getLastSample (addSample getMean getFeatures d x y) = (x, y)) ∧
    (∀ (k : List ℝ → List ℝ → ℝ) (s : SurrogateState), s.data = d →
      (updateSurrogateModel k getMean getFeatures s x y).1.data =
        addSample getMean getFeatures d x y) := by
  refine ⟨?_, ?_, ?_, ?_, ?_, ?_⟩
  · simp [addSample]
  · simp [addSample]
  · intro i hi
    exact List.getD_append _ _ _ _ hi
  · intro i hi
    exact List.getD_append _ _ _ _ hi
  · unfold getLastSample addSample
    simp only [List.length_append, List.length_singleton, Nat.add_sub_cancel]
    rw [← hlen, getD_append_self_length]
    rw [hlen, getD_append_self_length]
  · intro k s hs
    simp [updateSurrogateModel, hs]

/-- Witness for C9 at the empty sample state. -/
theorem addSample_appends_and_preserves_witness :
    ((addSample (fun _ => 0) (fun _ => []) ⟨[], [], [], []⟩ [5] 7).mGPXX.length = 0 + 1) ∧
    ((addSample (fun _ => 0) (fun _ => []) ⟨[], [], [], []⟩ [5] 7).mGPY.length = 0 + 1) ∧
    (∀ i, i < ([] : List (List ℝ)).length →
      (addSample (fun _ => 0) (fun _ => []) ⟨[], [], [], []⟩ [5] 7).mGPXX.getD i [] =
        ([] : List (List ℝ)).getD i []) ∧
    (∀ i, i < ([] : List ℝ).length →
      (addSample (fun _ => 0) (fun _ => []) ⟨[], [], [], []⟩ [5] 7).mGPY.getD i 0 =
        ([] : List ℝ).getD i 0) ∧
    (getLastSample (addSample (fun _ => 0) (fun _ => []) ⟨[], [], [], []⟩ [5] 7) = ([5], 7)) ∧
    (∀ (k : List ℝ → List ℝ → ℝ) (s : SurrogateState), s.data = ⟨[], [], [], []⟩ →
      (updateSurrogateModel k (fun _ => 0) (fun _ => []) s [5] 7).1.data =
        addSample (fun _ => 0) (fun _ => []) ⟨[], [], [], []⟩ [5] 7) := by
  have h := addSample_appends_and_preserves (fun _ => 0) (fun _ => [])
    ⟨[], [], [], []⟩ [5] 7 rfl
  exact h

/-- C6: a kernel-name expression containing any unregistered name makes
`KernelFactory::create` surface a configuration error (the
`std::invalid_argument` throw) instead of producing a kernel, and an
unknown surrogate name makes `NonParametricProcess::create` surface the
failure (`NULL`) immediately; both factories are pure up to the error:
nothing is constructed or mutated before it is surfaced. -/
theorem unknown_factory_name_surfaces_error :
    (∀ (input_dim : ℕ) (e : KernelExpr) (n : String),
      n ∈ exprNames e → n ∉ kernelRegistry →
      ∃ msg, KernelFactory_create input_dim e = .error msg) ∧
    (∀ (dim : ℕ) (parameters : bopt_params),
      parameters.surr_name ∉ ["sGaussianProcess", "sGaussianProcessML",
        "sGaussianProcessNormal", "sStudentTProcessJef", "sStudentTProcessNIG"] →
      NonParametricProcess_create dim parameters = none) := by
  constructor
  · intro input_dim e
    induction e with
    | atom os =>
        intro n hmem hreg
        have hn : n = os := by simpa [exprNames] using hmem
        subst hn
        exact ⟨"Error while parsing kernel function: Kernel not found " ++ n,
          by simp [KernelFactory_create, hreg]⟩
    | comb os os1 os2 ih1 ih2 =>
        intro n hmem hreg
        simp only [exprNames, List.mem_cons, List.mem_append] at hmem
        by_cases hos : os ∈ kernelRegistry
        · rcases hmem with rfl | h1 | h2
          · exact absurd hos hreg
          · obtain ⟨msg, hmsg⟩ := ih1 n h1 hreg
            exact ⟨msg, by simp [KernelFactory_create, hos, hmsg]⟩
          · obtain ⟨msg, hmsg⟩ := ih2 n h2 hreg
            rcases hcreate : KernelFactory_create input_dim os1 with msg1 | k1
            · exact ⟨msg1, by simp [KernelFactory_create, hos, hcreate]⟩
            · exact ⟨msg, by simp [KernelFactory_create, hos, hcreate, hmsg]⟩
        · exact ⟨"Error while parsing kernel function: Kernel not found " ++ os,
            by simp [KernelFactory_create, hos]⟩
  · intro dim parameters h
    simp only [List.mem_cons, List.not_mem_nil, or_false, not_or] at h
    obtain ⟨h1, h2, h3, h4, h5⟩ := h
    simp [NonParametricProcess_create, NonParametricProcess_createByName,
      h1, h2, h3, h4, h5]

/-- Witness for C6: the unregistered kernel name `"kFoo"` and the
unknown surrogate name `"sFoo"`. -/
theorem unknown_factory_name_surfaces_error_witness :
    ("kFoo" ∈ exprNames (.atom "kFoo") ∧ "kFoo" ∉ kernelRegistry ∧
      ∃ msg, KernelFactory_create 2 (.atom "kFoo") = .error msg) ∧
    ((bopt_params.mk 190 10 0 1 0 "sFoo" 0).surr_name ∉
        ["sGaussianProcess", "sGaussianProcessML", "sGaussianProcessNormal",
         "sStudentTProcessJef", "sStudentTProcessNIG"] ∧
      NonParametricProcess_create 2 (bopt_params.mk 190 10 0 1 0 "sFoo" 0) = none) :=
  ⟨⟨by simp [exprNames], by decide,
    unknown_factory_name_surfaces_error.1 2 (.atom "kFoo") "kFoo"
      (by simp [exprNames]) (by decide)⟩,
   ⟨by decide,
    unknown_factory_name_surfaces_error.2 2 (bopt_params.mk 190 10 0 1 0 "sFoo" 0)
      (by decide)⟩⟩

/-- C1: a run that executes `k` iterations, serialises, restores the
state into a freshly constructed optimizer with identical parameters and
resumes until iteration `N` reaches the same final state — hence the
same final best point `(x*, y*)` — as one uninterrupted `N`-iteration
run with the same seed, objective and parameters (all of which the
deterministic `step` consults only through the persisted state and the
parameter struct). -/
theorem resume_equals_uninterrupted_run
    (step : bopt_params → BOState → BOState) (par : bopt_params)
    (s0 : BOState) (k N : ℕ) (hkN : k ≤ N) :
    restoreOptimization (saveOptimization ((step par)^[k] s0)) = (step par)^[k] s0 ∧
    (step par)^[N - k]
        (restoreOptimization (saveOptimization ((step par)^[k] s0))) =
      (step par)^[N] s0 ∧
    getFinalResult ((step par)^[N - k]
        (restoreOptimization (saveOptimization ((step par)^[k] s0)))) =
      getFinalResult ((step par)^[N] s0) := by
  have hrt : restoreOptimization (saveOptimization ((step par)^[k] s0)) =
      (step par)^[k] s0 := rfl
  have hit : (step par)^[N - k] ((step par)^[k] s0) = (step par)^[N] s0 := by
    rw [← Function.iterate_add_apply]
    congr 1
    omega
  refine ⟨hrt, ?_, ?_⟩
  · rw [hrt, hit]
  · rw [hrt, hit]

/-- Witness for C1: an iteration-counting step, stop at `k = 1`, resume
to `N = 2`. -/
theorem resume_equals_uninterrupted_run_witness :
    (1 : ℕ) ≤ 2 ∧
    getFinalResult ((tickStep testParams)^[2 - 1]
        (restoreOptimization (saveOptimization ((tickStep testParams)^[1] testState)))) =
      getFinalResult ((tickStep testParams)^[2] testState) :=
  ⟨by decide,
   (resume_equals_uninterrupted_run tickStep testParams testState 1 2 (by decide)).2.2⟩

lemma seiso_self_eval_one (theta : ℝ) (x : List ℝ) : SEIso.eval theta x x = 1 := by
  simp [SEIso.eval, computeScaledNorm2_self]

lemma dup_sample_pivot_fail :
    ¬ PivotsPos ([[(0 : ℝ)], [0]].length)
      (computeCorrMatrix (SEIso.eval 1) [[0], [0]] 0) := by
  have h00 : computeCorrMatrix (SEIso.eval 1) [[(0 : ℝ)], [0]] 0 0 0 = 1 := by
    simp [computeCorrMatrix, seiso_self_eval_one]
  have h11 : computeCorrMatrix (SEIso.eval 1) [[(0 : ℝ)], [0]] 0 1 1 = 1 := by
    simp [computeCorrMatrix, seiso_self_eval_one]
  have h10 : computeCorrMatrix (SEIso.eval 1) [[(0 : ℝ)], [0]] 0 1 0 = 1 := by
    simp [computeCorrMatrix, seiso_self_eval_one]
  have h01 : computeCorrMatrix (SEIso.eval 1) [[(0 : ℝ)], [0]] 0 0 1 = 1 := by
    simp [computeCorrMatrix, seiso_self_eval_one]
  intro hpp
  have h2 := hpp.2.1
  rw [schurComplement, h11, h10, h01, h00] at h2
  norm_num at h2

/-- C2 counterexample: for the duplicate sample set `XX = [[0],[0]]`
with zero nugget under the SE-ISO kernel (θ = 1), the regularised
correlation matrix is not positive definite, yet
`precomputeSurrogate` does not return a failure code to its caller: it
terminates the process (`exit(EXIT_FAILURE)`). -/
theorem precomputeSurrogate_exit_counterexample :
    ¬ PivotsPos ([[(0 : ℝ)], [0]].length)
        (computeCorrMatrix (SEIso.eval 1) [[0], [0]] 0) ∧
    precomputeSurrogate 0 (SEIso.eval 1) [[0], [0]] 0 = FitOutcome.exited ∧
    ∀ code : ℤ, precomputeSurrogate 0 (SEIso.eval 1) [[0], [0]] 0 ≠ FitOutcome.ret code := by
  have hfail := dup_sample_pivot_fail
  have hfail2 : ¬ PivotsPos 2 (computeCorrMatrix (SEIso.eval 1) [[0], [0]] 0) := by
    simpa using hfail
  have hexit : precomputeSurrogate 0 (SEIso.eval 1) [[0], [0]] 0 = FitOutcome.exited := by
    simp [precomputeSurrogate, computeCholeskyCorrelation,
      cholesky_decompose_error, hfail2]
  refine ⟨hfail, hexit, ?_⟩
  intro code hcode
  rw [hexit] at hcode
  exact FitOutcome.noConfusion hcode

/-- C2 amended: on a sample set whose regularised correlation matrix is
not positive definite, `computeCholeskyCorrelation` reports a nonzero
error and `precomputeSurrogate` (hence `fitSurrogateModel`) logs and
terminates the process via `exit(EXIT_FAILURE)`; no failure code reaches
the caller. -/
theorem precomputeSurrogate_exits_on_nonpd (predErr : ℤ)
    (k : List ℝ → List ℝ → ℝ) (XX : List (List ℝ)) (mRegularizer : ℝ)
    (h : ¬ PivotsPos XX.length (computeCorrMatrix k XX mRegularizer)) :
    computeCholeskyCorrelation k XX mRegularizer ≠ 0 ∧
    precomputeSurrogate predErr k XX mRegularizer = FitOutcome.exited := by
  have herr : computeCholeskyCorrelation k XX mRegularizer = 1 := by
    simp [computeCholeskyCorrelation, cholesky_decompose_error, h]
  constructor
  · rw [herr]; norm_num
  · simp [precomputeSurrogate, herr]

/-- Witness for the amended C2: a single sample whose self-correlation
is zero under the constant-zero kernel. -/
theorem precomputeSurrogate_exits_on_nonpd_witness :
    ¬ PivotsPos ([[(1 : ℝ)]].length)
        (computeCorrMatrix (fun _ _ => (0 : ℝ)) [[1]] 0) ∧
    (computeCholeskyCorrelation (fun _ _ => (0 : ℝ)) [[1]] 0 ≠ 0 ∧
      precomputeSurrogate 0 (fun _ _ => (0 : ℝ)) [[1]] 0 = FitOutcome.exited) := by
  have h : ¬ PivotsPos ([[(1 : ℝ)]].length)
      (computeCorrMatrix (fun _ _ => (0 : ℝ)) [[1]] 0) := by
    intro hpp
    have h1 := hpp.1
    simp [computeCorrMatrix] at h1
  exact ⟨h, precomputeSurrogate_exits_on_nonpd 0 (fun _ _ => (0 : ℝ)) [[1]] 0 h⟩

/-- C3 counterexample: appending the duplicate sample `[0]` (zero
regularizer, SE-ISO kernel, θ = 1) to the one-sample state with factor
`L = [[1]]` produces an append whose new diagonal satisfies `d² = 0 ≤ 0`
— positive-definiteness is lost — yet `addNewPointToCholesky` returns 0,
`updateSurrogateModel` returns 0 (success), and the resulting factor is
the raw append `[[1],[1,0]]` with a zero diagonal entry: the failure is
neither reported nor followed by a refactorisation. -/
theorem updateSurrogateModel_ignores_append_failure_counterexample :
    appendDiagSq [[(1 : ℝ)]] ([1] ++ [1]) ≤ 0 ∧
    (addNewPointToCholesky [[(1 : ℝ)]] [1] 1).2 = 0 ∧
    (updateSurrogateModel (SEIso.eval 1) (fun _ => 0) (fun _ => [1])
        ⟨⟨[[0]], [0], [0], [[1]]⟩, [[1]], 0⟩ [0] 0).2 = 0 ∧
    (updateSurrogateModel (SEIso.eval 1) (fun _ => 0) (fun _ => [1])
        ⟨⟨[[0]], [0], [0], [[1]]⟩, [[1]], 0⟩ [0] 0).1.mL = [[1], [1, 0]] := by
  have hsolve : forwardSolve [[(1 : ℝ)]] [1] = [1] := by
    simp [forwardSolve, forwardSolveAux]
  refine ⟨?_, rfl, rfl, ?_⟩
  · rw [appendDiagSq]
    simp [hsolve, dotSelf]
  · show (addNewPointToCholesky [[(1 : ℝ)]]
        ([[(0 : ℝ)]].map fun xi => SEIso.eval 1 xi [0])
        (SEIso.eval 1 [0] [0] + 0)).1 = [[1], [1, 0]]
    have hk : SEIso.eval 1 [(0 : ℝ)] [0] = 1 := seiso_self_eval_one 1 [0]
    simp only [List.map_cons, List.map_nil, hk, add_zero]
    rw [addNewPointToCholesky, cholesky_add_row]
    simp [hsolve, dotSelf]

/-- C3 amended: `addNewPointToCholesky` returns 0 unconditionally and
`updateSurrogateModel` discards even that code: a rank-1 append that
loses positive-definiteness is neither reported nor followed by a
refactorisation — the raw appended factor is installed and
`updateSurrogateModel` returns success. -/
theorem updateSurrogateModel_never_reports_append_failure
    (k : List ℝ → List ℝ → ℝ) (getMean : List ℝ → ℝ)
    (getFeatures : List ℝ → List ℝ) (s : SurrogateState)
    (Xnew : List ℝ) (Ynew : ℝ) :
    (addNewPointToCholesky s.mL (s.data.mGPXX.map fun xi => k xi Xnew)
        (k Xnew Xnew + s.mRegularizer)).2 = 0 ∧
    (updateSurrogateModel k getMean getFeatures s Xnew Ynew).2 = 0 ∧
    (updateSurrogateModel k getMean getFeatures s Xnew Ynew).1.mL =
      cholesky_add_row s.mL ((s.data.mGPXX.map fun xi => k xi Xnew) ++
        [k Xnew Xnew + s.mRegularizer]) :=
  ⟨rfl, rfl, rfl⟩

lemma seard_eval_single (t : ℝ) :
    SEArd.eval [t] [2] [0] = Real.exp (-2 * ((t ^ 2)⁻¹)) := by
  have harg : -(((2 - 0) / t) * ((2 - 0) / t) + 0) / 2 = -2 * ((t ^ 2)⁻¹) := by
    rcases eq_or_ne t 0 with rfl | ht
    · norm_num
    · field_simp
      ring
  simp only [SEArd.eval, computeScaledDiff, ublas_elementwise_div, vsub,
    norm_2, List.zipWith_cons_cons, List.zipWith_nil_right, List.map_cons,
    List.map_nil, List.sum_cons, List.sum_nil]
  rw [Real.mul_self_sqrt (add_nonneg (mul_self_nonneg _) le_rfl)]
  rw [harg]

/-- C4: for the SE-ARD kernel, `getGradient` is *not* the partial
derivative of `k(x1,x2)` with respect to the hyperparameter: at
`θ = [1]`, `x1 = [2]`, `x2 = [0]`, index 0, the derivative of
`θ₀ ↦ k(x1,x2)` at `θ₀ = 1` is `4·exp(-2)`, while the source's
`getGradient` returns `exp(-2)·sqrt(ri(0)) = exp(-2)·sqrt 2` — the
`sqrt` of the scaled coordinate difference, which the spec's design
notes already flag as suspect (and which is not even defined as a real
number when `x1ᵢ < x2ᵢ`). -/
theorem seard_getGradient_is_not_theta_derivative :
    HasDerivAt (fun t : ℝ => SEArd.eval [t] [2] [0]) (4 * Real.exp (-2)) 1 ∧
    SEArd.getGradient [1] [2] [0] 0 = Real.exp (-2) * Real.sqrt 2 ∧
    Real.exp (-2) * Real.sqrt 2 ≠ 4 * Real.exp (-2) := by
  refine ⟨?_, ?_, ?_⟩
  · have h1 : HasDerivAt (fun t : ℝ => t ^ 2) 2 1 := by
      simpa using hasDerivAt_pow 2 (1 : ℝ)
    have h2 : HasDerivAt (fun t : ℝ => (t ^ 2)⁻¹) (-2 / ((1 : ℝ) ^ 2) ^ 2) 1 :=
      h1.inv (by norm_num)
    have h3 : HasDerivAt (fun t : ℝ => -2 * ((t ^ 2)⁻¹))
        (-2 * (-2 / ((1 : ℝ) ^ 2) ^ 2)) 1 := h2.const_mul (-2)
    have h4 := h3.exp
    have hfe : (fun t : ℝ => SEArd.eval [t] [2] [0]) =
        fun t : ℝ => Real.exp (-2 * ((t ^ 2)⁻¹)) :=
      funext fun t => seard_eval_single t
    have hv : Real.exp (-2 * (((1 : ℝ) ^ 2)⁻¹)) * (-2 * (-2 / ((1 : ℝ) ^ 2) ^ 2)) =
        4 * Real.exp (-2) := by
      norm_num
      ring
    rw [hfe]
    rw [hv] at h4
    exact h4
  · have hsq : Real.sqrt (((2 : ℝ) - 0) / 1 * (((2 : ℝ) - 0) / 1) + 0) *
        Real.sqrt (((2 : ℝ) - 0) / 1 * (((2 : ℝ) - 0) / 1) + 0) = 4 := by
      rw [Real.mul_self_sqrt (by norm_num)]
      norm_num
    simp only [SEArd.getGradient, computeScaledDiff, ublas_elementwise_div, vsub,
      norm_2, List.zipWith_cons_cons, List.zipWith_nil_right, List.map_cons,
      List.map_nil, List.sum_cons, List.sum_nil, List.getD_cons_zero]
    rw [hsq]
    norm_num
  · intro heq
    have hcancel : Real.sqrt 2 = 4 := by
      have h' : Real.exp (-2) * Real.sqrt 2 = Real.exp (-2) * 4 := by
        rw [heq]; ring
      exact mul_left_cancel₀ (Real.exp_ne_zero (-2)) h'
    have h2 : Real.sqrt 2 ^ 2 = 2 := Real.sq_sqrt (by norm_num)
    rw [hcancel] at h2
    norm_num at h2
